import Mathlib

set_option autoImplicit false

/-!
Shallow embedding of the fetcher orchestration engine of the
paramify/evidence-fetchers repository, together with theorems checking the
natural-language specification against it.

Two orchestrators exist in the source tree and both are embedded here:

* MainFetcher  — 3-run-fetchers/main_fetcher.py: runs every script of one
  provider, classifies each run into PASS/FAIL/ERROR/TIMEOUT, and derives the
  process exit code from the ERROR/TIMEOUT counts.
* RunFetchers  — 3-run-fetchers/run_fetchers.py: expands environment-variable
  multiplication groups into fetcher instances, runs each instance once,
  and writes a summary document correlating results to evidence files.

Filesystem interaction and subprocess execution are modelled by explicit
parameters: the outcome of a child process is a value of an outcome type, and
the evidence directory is represented by the list of stems of its JSON files.
-/

namespace EvidenceFetchers

/-! ### MainFetcher: statuses and classification (main_fetcher.py) -/

namespace MainFetcher

/-- The four terminal statuses an instance can receive in main_fetcher.py. -/
inductive Status where
  | PASS
  | FAIL
  | ERROR
  | TIMEOUT
deriving DecidableEq, Repr

/-- Outcome of attempting to run a child process in main_fetcher.py:
it either ran to completion with an exit code, raised TimeoutExpired, or
raised an OSError when being launched. -/
inductive ExecOutcome where
  | exited (code : Nat)
  | timedOut
  | osError
deriving DecidableEq, Repr

/-- Embedding of run_provider_script (main_fetcher.py lines 69-122).
The script path check precedes everything; then subprocess.run with
check=True turns a non-zero exit into CalledProcessError (ERROR), a timeout
into TimeoutExpired (TIMEOUT), a launch failure into OSError (ERROR); on exit
code 0 the status is PASS exactly when the expected JSON evidence file exists
in the evidence directory, and FAIL otherwise. -/
def run_provider_script (scriptExists : Bool) (outcome : ExecOutcome)
    (jsonFileExists : Bool) : Status :=
  if !scriptExists then .ERROR
  else
    match outcome with
    | .exited 0 => if jsonFileExists then .PASS else .FAIL
    | .exited (_ + 1) => .ERROR
    | .timedOut => .TIMEOUT
    | .osError => .ERROR

/-- Count of results carrying one given status (main_fetcher.py lines 281-284). -/
def statusCount (results : List Status) (s : Status) : Nat :=
  (results.filter (fun r => r == s)).length

/-- Embedding of the final return of main (main_fetcher.py line 288):
0 if error_count == 0 and timeout_count == 0 else 1. -/
def mainExitCode (results : List Status) : Nat :=
  if statusCount results .ERROR = 0 ∧ statusCount results .TIMEOUT = 0 then 0 else 1

end MainFetcher

/-! ### RunFetchers: environment parsing, instance expansion (run_fetchers.py) -/

namespace RunFetchers

/-- Process environments and Python dicts of strings are modelled as
association lists in iteration (insertion) order. -/
abbrev Env := List (String × String)

/-- First-match association-list lookup; models Python dict access
(keys are unique in every list this is applied to). -/
def lookupA {β : Type} : List (String × β) → String → Option β
  | [], _ => none
  | (k, v) :: rest, key => if k = key then some v else lookupA rest key

/-- Models dict.get(key, default). -/
def envGet (env : Env) (key default : String) : String :=
  (lookupA env key).getD default

/-- Models the Python membership test "key in dict". -/
def hasKey {β : Type} (l : List (String × β)) (key : String) : Bool :=
  (lookupA l key).isSome

/-- Models Python dict assignment d[k] = v: replace the binding in place if
the key is present, otherwise append the new binding at the end. -/
def updateA {β : Type} : List (String × β) → String → β → List (String × β)
  | [], k, v => [(k, v)]
  | (k', v') :: rest, k, v =>
      if k' = k then (k, v) :: rest else (k', v') :: updateA rest k v

/-- Models s.startswith(pre): the characters of pre are a prefix of s. -/
def strStartsWith (s pre : String) : Bool :=
  pre.data.isPrefixOf s.data

/-- Models str.lower(), character by character. -/
def lowerStr (s : String) : String :=
  String.mk (s.data.map Char.toLower)

/-- Models str.upper(), character by character. -/
def upperStr (s : String) : String :=
  String.mk (s.data.map Char.toUpper)

/-- Models str.strip(): remove leading and trailing whitespace. -/
def trimStr (s : String) : String :=
  String.mk
    (((s.data.dropWhile Char.isWhitespace).reverse.dropWhile
      Char.isWhitespace).reverse)

/-- Models str.split(','): split at every comma, keeping empty pieces. -/
def splitOnComma : List Char → List (List Char)
  | [] => [[]]
  | c :: rest =>
      let r := splitOnComma rest
      if c = ',' then [] :: r
      else
        match r with
        | [] => [[c]]
        | h :: t => (c :: h) :: t

/-- Embedding of the regular expression match against a group key, e.g.
GITLAB_PROJECT_(\d+)_(.+) : the key must start with the given prefix string,
followed by a nonempty run of digits (taken greedily), an underscore and a
nonempty remainder. Returns (group index, remainder). -/
def matchGroupKey (pre key : String) : Option (String × String) :=
  if pre.data.isPrefixOf key.data then
    let rest := key.data.drop pre.data.length
    let ds := rest.takeWhile Char.isDigit
    if ds.isEmpty then none
    else
      match rest.drop ds.length with
      | '_' :: t => if t.isEmpty then none else some (String.mk ds, String.mk t)
      | _ => none
  else none

/-- Embedding of the environment scan of parse_multi_instance_config
(run_fetchers.py lines 105-114 and 134-143): group the matching environment
variables by group index into a dict of dicts, with the remainder of the key
lowercased; later assignments to the same (index, key) overwrite. -/
def collectGroups (pre : String) (env : Env) : List (String × Env) :=
  env.foldl
    (fun acc kv =>
      match matchGroupKey pre kv.1 with
      | some (num, ckey) =>
          updateA acc num
            (updateA ((lookupA acc num).getD []) (lowerStr ckey) kv.2)
      | none => acc)
    []

/-- A parsed GitLab multiplication group (run_fetchers.py lines 117-128). -/
structure GitlabProject where
  name : String
  url : String
  token : String
  project_id : String
  fetchers : List String
  config : Env
deriving DecidableEq, Repr

/-- A parsed AWS-region multiplication group (run_fetchers.py lines 146-156). -/
structure AwsRegion where
  name : String
  region : String
  profile : String
  fetchers : List String
  config : Env
deriving DecidableEq, Repr

/-- The result of parse_multi_instance_config. -/
structure MultiConfig where
  gitlab_projects : List GitlabProject
  aws_regions : List AwsRegion
deriving DecidableEq, Repr

/-- Models value.split(',') followed by str.strip on each part. -/
def splitFetchers (s : String) : List String :=
  (splitOnComma s.data).map (fun cs => trimStr (String.mk cs))

/-- The mandatory keys of a GitLab group (run_fetchers.py line 118). -/
def gitlabMandatory : List String := ["url", "api_access_token", "id", "fetchers"]

/-- Validity filter of a GitLab group: all mandatory keys present. -/
def gitlabValid (cfg : Env) : Bool := gitlabMandatory.all (hasKey cfg)

/-- Builds the GitLab project record from a valid group
(run_fetchers.py lines 119-128). -/
def mkGitlabProject (num : String) (cfg : Env) : GitlabProject :=
  { name := "project_" ++ num
    url := envGet cfg "url" ""
    token := envGet cfg "api_access_token" ""
    project_id := envGet cfg "id" ""
    fetchers := splitFetchers (envGet cfg "fetchers" "")
    config := cfg.filter (fun kv => !(gitlabMandatory.contains kv.1)) }

/-- The keys excluded from an AWS group's passthrough config
(run_fetchers.py lines 154-155). -/
def awsExcluded : List String := ["region", "profile", "fetchers"]

/-- Builds the AWS region record from a valid group (run_fetchers.py lines
148-156). An absent region key defaults to the group index itself; an absent
profile key defaults to the ambient AWS_PROFILE value or the empty string. -/
def mkAwsRegion (env : Env) (num : String) (cfg : Env) : AwsRegion :=
  { name := "region_" ++ num
    region := envGet cfg "region" num
    profile := envGet cfg "profile" (envGet env "AWS_PROFILE" "")
    fetchers := splitFetchers (envGet cfg "fetchers" "")
    config := cfg.filter (fun kv => !(awsExcluded.contains kv.1)) }

/-- Embedding of parse_multi_instance_config (run_fetchers.py lines 94-158):
scan the environment into groups, then keep exactly the groups carrying all
their mandatory keys (url, api_access_token, id, fetchers for GitLab; fetchers
for AWS regions). Incomplete groups are dropped without error. -/
def parse_multi_instance_config (env : Env) : MultiConfig :=
  { gitlab_projects :=
      (collectGroups "GITLAB_PROJECT_" env).filterMap fun g =>
        if gitlabValid g.2 then some (mkGitlabProject g.1 g.2) else none
    aws_regions :=
      (collectGroups "AWS_REGION_" env).filterMap fun g =>
        if hasKey g.2 "fetchers" then some (mkAwsRegion env g.1 g.2) else none }

/-- A fetcher instance (run_fetchers.py lines 169-206). The script_data
payload from the evidence-sets catalog is carried opaquely. -/
structure Inst where
  script_name : String
  script_data : String
  instance_name : String
  provider : String
  config : Env
deriving DecidableEq, Repr

/-- The evidence-sets catalog, as the association of fetcher name to its
(opaque) catalog entry. -/
abbrev EvidenceSets := List (String × String)

/-- Models the loop adding namespaced override keys to an instance config
dict (run_fetchers.py lines 182-183 and 203-204). -/
def addOverrides (base : Env) (pre : String) (extra : Env) : Env :=
  extra.foldl (fun acc kv => updateA acc (pre ++ upperStr kv.1) kv.2) base

/-- Instances contributed by one GitLab group (run_fetchers.py lines 166-185):
one instance per listed fetcher name that is present in the catalog. -/
def gitlabInstances (es : EvidenceSets) (p : GitlabProject) : List Inst :=
  p.fetchers.filterMap fun fn =>
    match lookupA es fn with
    | some d =>
        some { script_name := fn
               script_data := d
               instance_name := fn ++ "_" ++ p.name
               provider := "gitlab"
               config := addOverrides
                 [("GITLAB_URL", p.url), ("GITLAB_API_TOKEN", p.token),
                  ("GITLAB_PROJECT_ID", p.project_id)] "GITLAB_" p.config }
    | none => none

/-- Instances contributed by one AWS-region group (run_fetchers.py lines
188-206). -/
def awsInstances (es : EvidenceSets) (r : AwsRegion) : List Inst :=
  r.fetchers.filterMap fun fn =>
    match lookupA es fn with
    | some d =>
        some { script_name := fn
               script_data := d
               instance_name := fn ++ "_" ++ r.name
               provider := "aws"
               config := addOverrides
                 [("AWS_PROFILE", r.profile), ("AWS_REGION", r.region)]
                 "AWS_" r.config }
    | none => none

/-- Embedding of create_fetcher_instances (run_fetchers.py lines 161-208):
GitLab groups first, then AWS-region groups, in discovery order. -/
def create_fetcher_instances (es : EvidenceSets) (mc : MultiConfig) : List Inst :=
  (mc.gitlab_projects.map (gitlabInstances es)).flatten
    ++ (mc.aws_regions.map (awsInstances es)).flatten

/-- Outcome of one child-process attempt in run_fetchers.py: completed with an
exit code, raised TimeoutExpired, or raised any other exception. -/
inductive RunOutcome where
  | exited (code : Nat)
  | timedOut
  | exn
deriving DecidableEq, Repr

/-- Embedding of run_fetcher_instance (run_fetchers.py lines 211-294): the
function returns a bare boolean — True exactly when the script was found and
the child exited 0; a non-zero exit, a timeout, or any exception all return
False. -/
def run_fetcher_instance (scriptFound : Bool) (outcome : RunOutcome) : Bool :=
  if !scriptFound then false
  else
    match outcome with
    | .exited 0 => true
    | .exited (_ + 1) => false
    | .timedOut => false
    | .exn => false

/-- Embedding of run_fetcher_script (run_fetchers.py lines 297-361), whose
success classification is identical to run_fetcher_instance. -/
def run_fetcher_script (scriptFound : Bool) (outcome : RunOutcome) : Bool :=
  if !scriptFound then false
  else
    match outcome with
    | .exited 0 => true
    | .exited (_ + 1) => false
    | .timedOut => false
    | .exn => false

/-- Embedding of re.sub applied with the pattern that removes a trailing
group suffix of the form _project_<digits> or _region_<digits> from an
instance name (run_fetchers.py line 392). If the name does not end in such a
suffix it is returned unchanged. -/
def stripInstanceSuffix (name : String) : String :=
  let cs := name.data
  let d := (cs.reverse.takeWhile Char.isDigit).length
  if d = 0 then name
  else
    let head := cs.take (cs.length - d)
    if "_project_".data <:+ head then String.mk (head.take (head.length - 9))
    else if "_region_".data <:+ head then String.mk (head.take (head.length - 8))
    else name

/-- Embedding of re.search against the anchored pattern matching a trailing
group label (run_fetchers.py lines 419 and 423): for word "project", a name
ending in _project_<digits> yields the captured label project_<digits>. -/
def trailingGroupLabel (word : String) (name : String) : Option String :=
  let cs := name.data
  let ds := cs.reverse.takeWhile Char.isDigit
  if ds.isEmpty then none
  else
    let head := cs.take (cs.length - ds.length)
    if ("_" ++ word ++ "_").data <:+ head then
      some (word ++ "_" ++ String.mk ds.reverse)
    else none

/-- The resource fallback of create_summary_file when no instance-info map was
supplied (run_fetchers.py lines 417-425): parse a project_<n> label out of
the name, then a region_<n> label, keeping "unknown" when neither matches. -/
def fallbackResource (name : String) : String :=
  let r1 :=
    match trailingGroupLabel "project" name with
    | some g => g
    | none => "unknown"
  match trailingGroupLabel "region" name with
  | some g => g
  | none => r1

/-- Embedding of the resource extraction of create_summary_file
(run_fetchers.py lines 404-425). When an instance-info map is supplied the
resource comes only from the looked-up instance's provider and config keys
(GitLab project id, then AWS region, then AWS profile); the instance-name
parsing branch runs only when no map was supplied at all. -/
def extractResource (instance_info : Option (List (String × Inst)))
    (script_name : String) : String :=
  match instance_info with
  | some m =>
      match lookupA m script_name with
      | some i =>
          if i.provider = "gitlab" ∧ hasKey i.config "GITLAB_PROJECT_ID" then
            envGet i.config "GITLAB_PROJECT_ID" "unknown"
          else if i.provider = "aws" ∧ hasKey i.config "AWS_REGION" then
            envGet i.config "AWS_REGION" "unknown"
          else if i.provider = "aws" ∧ hasKey i.config "AWS_PROFILE" then
            envGet i.config "AWS_PROFILE" "unknown"
          else "unknown"
      | none => "unknown"
  | none => fallbackResource script_name

/-- Embedding of the per-entry status of create_summary_file
(run_fetchers.py line 381). -/
def summaryStatus (success : Bool) : String :=
  if success then "PASS" else "FAIL"

/-- Embedding of the evidence-file correlation of create_summary_file
(run_fetchers.py lines 384-402), over the list of JSON file stems of the
evidence directory (summary already excluded): exact match on the name,
then exact match on the suffix-stripped base name, then the first stem that
extends or is extended by the base name. -/
def findEvidenceFile (json_files : List String) (script_name : String) :
    Option String :=
  if json_files.contains script_name then some script_name
  else
    let base_name := stripInstanceSuffix script_name
    if json_files.contains base_name then some base_name
    else
      json_files.find? fun stem =>
        strStartsWith stem base_name || strStartsWith base_name stem

/-- One entry of the summary document (run_fetchers.py lines 427-432). -/
structure SummaryEntry where
  check : String
  resource : String
  status : String
  evidence_file : Option String
deriving DecidableEq, Repr

/-- The summary document (run_fetchers.py lines 435-442). -/
structure Summary where
  timestamp : String
  evidence_directory : String
  total_scripts : Nat
  successful_scripts : Nat
  failed_scripts : Nat
  results : List SummaryEntry
deriving DecidableEq, Repr

/-- The full path under which a JSON stem of the evidence directory is
reported (str of the pathlib path). -/
def evidencePath (evidence_dir stem : String) : String :=
  evidence_dir ++ "/" ++ stem ++ ".json"

/-- Embedding of create_summary_file (run_fetchers.py lines 364-449).
Inputs: the evidence directory, the timestamp taken at entry, the stems of
the JSON files currently in the directory, the ordered results dict mapping
instance name to success, and the optional instance-info map. -/
def create_summary_file (evidence_dir timestamp : String)
    (dirListing : List String) (results : List (String × Bool))
    (instance_info : Option (List (String × Inst))) : Summary :=
  let json_files := dirListing.filter (fun s => !(s == "summary"))
  let summary_results := results.map fun r =>
    { check := r.1
      resource := extractResource instance_info r.1
      status := summaryStatus r.2
      evidence_file :=
        (findEvidenceFile json_files r.1).map (evidencePath evidence_dir) }
  { timestamp := timestamp
    evidence_directory := evidence_dir
    total_scripts := results.length
    successful_scripts := (results.filter (fun r => r.2 == true)).length
    failed_scripts := (results.filter (fun r => r.2 == false)).length
    results := summary_results }

/-- The covered/uncovered fetcher computation of main (run_fetchers.py lines
474-481 with the sorted iteration of line 548): catalog fetchers claimed by
no instance, in sorted order. -/
def uncovered_fetchers (es : EvidenceSets) (instances : List Inst) :
    List String :=
  List.insertionSort (· ≤ ·)
    ((es.map Prod.fst).filter fun f =>
      !((instances.map Inst.script_name).contains f))

/-- The multi-instance execution loop of main (run_fetchers.py lines 530-537):
each instance in order gets exactly one run_fetcher_instance call, whose
boolean is written into the results dict under the instance name. The
environment interaction of one attempt (script resolution and child outcome)
is supplied by the oracle. -/
def runInstances (instances : List Inst)
    (oracle : Inst → Bool × RunOutcome) : List (String × Bool) :=
  instances.foldl
    (fun acc i =>
      updateA acc i.instance_name
        (run_fetcher_instance (oracle i).1 (oracle i).2))
    []

/-- The standard-fetcher loop of main (run_fetchers.py lines 548-574),
continuing the same results dict. -/
def runStandard (names : List String) (oracle : String → Bool × RunOutcome)
    (acc : List (String × Bool)) : List (String × Bool) :=
  names.foldl
    (fun acc n =>
      updateA acc n (run_fetcher_script (oracle n).1 (oracle n).2))
    acc

/-- The full execution phase of main (run_fetchers.py lines 470-577):
expand instances, run them, then run the uncovered standard fetchers. -/
def mainResults (es : EvidenceSets) (mc : MultiConfig)
    (oracleI : Inst → Bool × RunOutcome)
    (oracleS : String → Bool × RunOutcome) : List (String × Bool) :=
  let instances := create_fetcher_instances es mc
  runStandard (uncovered_fetchers es instances) oracleS
    (runInstances instances oracleI)

/-- The process exit code of run_fetchers.py: main returns None on every
path and the module calls it bare, so the interpreter always exits 0. -/
def run_fetchers_exit_code : Nat := 0

end RunFetchers

/-! ### Helper lemmas about the association-list operations -/

namespace RunFetchers

theorem lookupA_mem {β : Type} {l : List (String × β)} {k : String} {v : β}
    (h : lookupA l k = some v) : (k, v) ∈ l := by
  induction l with
  | nil => simp [lookupA] at h
  | cons hd tl ih =>
      obtain ⟨a, b⟩ := hd
      rw [lookupA] at h
      by_cases hk : a = k
      · rw [if_pos hk] at h
        subst hk
        have hv : b = v := Option.some.inj h
        subst hv
        exact List.mem_cons_self _ _
      · rw [if_neg hk] at h
        exact List.mem_cons_of_mem _ (ih h)

theorem mem_lookupA {β : Type} {l : List (String × β)} {k : String} {v : β}
    (hnd : (l.map Prod.fst).Nodup) (h : (k, v) ∈ l) : lookupA l k = some v := by
  induction l with
  | nil => simp at h
  | cons hd tl ih =>
      simp only [List.map_cons, List.nodup_cons] at hnd
      rcases List.mem_cons.mp h with h1 | h1
      · cases h1
        simp [lookupA]
      · have hne : hd.1 ≠ k := by
          intro he
          exact hnd.1 (he ▸ (List.mem_map.mpr ⟨(k, v), h1, rfl⟩))
        rw [lookupA, if_neg hne]
        exact ih hnd.2 h1

theorem keys_updateA {β : Type} (l : List (String × β)) (k : String) (v : β) :
    (updateA l k v).map Prod.fst =
      if k ∈ l.map Prod.fst then l.map Prod.fst else l.map Prod.fst ++ [k] := by
  induction l with
  | nil => simp [updateA]
  | cons hd tl ih =>
      rw [updateA]
      by_cases hk : hd.1 = k
      · subst hk
        simp
      · rw [if_neg hk]
        simp only [List.map_cons, ih]
        have : (k ∈ hd.1 :: tl.map Prod.fst) ↔ k ∈ tl.map Prod.fst := by
          constructor
          · intro h
            rcases List.mem_cons.mp h with h | h
            · exact absurd h.symm hk
            · exact h
          · exact List.mem_cons_of_mem _
        by_cases hm : k ∈ tl.map Prod.fst
        · rw [if_pos hm, if_pos (this.mpr hm)]
        · rw [if_neg hm, if_neg (fun hc => hm (this.mp hc))]
          simp

theorem nodup_keys_updateA {β : Type} {l : List (String × β)} (k : String)
    (v : β) (h : (l.map Prod.fst).Nodup) :
    ((updateA l k v).map Prod.fst).Nodup := by
  rw [keys_updateA]
  by_cases hm : k ∈ l.map Prod.fst
  · rwa [if_pos hm]
  · rw [if_neg hm]
    refine List.Nodup.append h (List.nodup_singleton k) ?_
    intro a ha hb
    rw [List.mem_singleton] at hb
    subst hb
    exact hm ha

theorem collectGroups_keys_nodup (pre : String) (env : Env) :
    ((collectGroups pre env).map Prod.fst).Nodup := by
  rw [collectGroups]
  suffices h : ∀ acc : List (String × Env), (acc.map Prod.fst).Nodup →
      ((env.foldl (fun acc kv =>
        match matchGroupKey pre kv.1 with
        | some (num, ckey) =>
            updateA acc num
              (updateA ((lookupA acc num).getD []) (lowerStr ckey) kv.2)
        | none => acc) acc).map Prod.fst).Nodup by
    exact h [] (by simp)
  induction env with
  | nil => intro acc hacc; simpa using hacc
  | cons hd tl ih =>
      intro acc hacc
      rw [List.foldl_cons]
      apply ih
      cases hmk : matchGroupKey pre hd.1 with
      | none => simpa [hmk] using hacc
      | some p => simpa [hmk] using nodup_keys_updateA p.1 _ hacc

theorem matchGroupKey_digits {pre key num rest : String}
    (h : matchGroupKey pre key = some (num, rest)) :
    num.data ≠ [] ∧ ∀ c ∈ num.data, c.isDigit = true := by
  simp only [matchGroupKey] at h
  split at h
  · split at h
    · simp at h
    · rename_i he
      split at h
      · split at h
        · simp at h
        · cases h
          refine ⟨?_, ?_⟩
          · intro hc2
            apply he
            simpa [List.isEmpty_iff] using hc2
          · intro ch hch
            exact List.mem_takeWhile_imp hch
      · simp at h
  · simp at h

theorem collectGroups_keys_digits (pre : String) (env : Env) :
    ∀ k ∈ (collectGroups pre env).map Prod.fst,
      k.data ≠ [] ∧ ∀ c ∈ k.data, c.isDigit = true := by
  rw [collectGroups]
  suffices h : ∀ acc : List (String × Env),
      (∀ k ∈ acc.map Prod.fst, k.data ≠ [] ∧ ∀ c ∈ k.data, c.isDigit = true) →
      ∀ k ∈ ((env.foldl (fun acc kv =>
        match matchGroupKey pre kv.1 with
        | some (num, ckey) =>
            updateA acc num
              (updateA ((lookupA acc num).getD []) (lowerStr ckey) kv.2)
        | none => acc) acc).map Prod.fst),
        k.data ≠ [] ∧ ∀ c ∈ k.data, c.isDigit = true by
    exact h [] (by simp)
  induction env with
  | nil => intro acc hacc; simpa using hacc
  | cons hd tl ih =>
      intro acc hacc
      rw [List.foldl_cons]
      apply ih
      cases hmk : matchGroupKey pre hd.1 with
      | none => simpa [hmk] using hacc
      | some p =>
          simp only [hmk]
          intro k hk
          rw [keys_updateA] at hk
          by_cases hm : p.1 ∈ acc.map Prod.fst
          · exact hacc k (by rwa [if_pos hm] at hk)
          · rw [if_neg hm] at hk
            rcases List.mem_append.mp hk with h1 | h1
            · exact hacc k h1
            · obtain ⟨q, hq⟩ : ∃ q, p = (p.1, q) := ⟨p.2, rfl⟩
              rw [List.mem_singleton.mp h1]
              exact matchGroupKey_digits (hq ▸ hmk)

end RunFetchers

namespace RunFetchers

theorem str_append_cancel_left {a b c : String} (h : a ++ b = a ++ c) :
    b = c := by
  apply String.ext
  have h2 := congrArg String.data h
  rw [String.data_append, String.data_append] at h2
  exact List.append_cancel_left h2

theorem str_append_cancel_right {a b c : String} (h : a ++ c = b ++ c) :
    a = b := by
  apply String.ext
  have h2 := congrArg String.data h
  rw [String.data_append, String.data_append] at h2
  exact List.append_cancel_right h2

theorem mem_gitlabInstances {es : EvidenceSets} {p : GitlabProject} {i : Inst}
    (h : i ∈ gitlabInstances es p) :
    i.provider = "gitlab" ∧ i.instance_name = i.script_name ++ "_" ++ p.name ∧
      i.script_name ∈ p.fetchers ∧ (lookupA es i.script_name).isSome = true := by
  rw [gitlabInstances] at h
  obtain ⟨fn, hfn, hsome⟩ := List.mem_filterMap.mp h
  cases hlk : lookupA es fn with
  | none => rw [hlk] at hsome; cases hsome
  | some d =>
      rw [hlk] at hsome
      cases hsome
      exact ⟨rfl, rfl, hfn, by rw [hlk]; rfl⟩

theorem mem_awsInstances {es : EvidenceSets} {r : AwsRegion} {i : Inst}
    (h : i ∈ awsInstances es r) :
    i.provider = "aws" ∧ i.instance_name = i.script_name ++ "_" ++ r.name ∧
      i.script_name ∈ r.fetchers ∧ (lookupA es i.script_name).isSome = true := by
  rw [awsInstances] at h
  obtain ⟨fn, hfn, hsome⟩ := List.mem_filterMap.mp h
  cases hlk : lookupA es fn with
  | none => rw [hlk] at hsome; cases hsome
  | some d =>
      rw [hlk] at hsome
      cases hsome
      exact ⟨rfl, rfl, hfn, by rw [hlk]; rfl⟩

theorem mem_create_fetcher_instances {es : EvidenceSets} {mc : MultiConfig}
    {i : Inst} :
    i ∈ create_fetcher_instances es mc ↔
      (∃ p ∈ mc.gitlab_projects, i ∈ gitlabInstances es p) ∨
      (∃ r ∈ mc.aws_regions, i ∈ awsInstances es r) := by
  simp [create_fetcher_instances, List.mem_append, List.mem_flatten,
    List.mem_map]

end RunFetchers

/-! ### C1 — status classification of the process runners -/

/-- Claim C1, counterexample. The claim asserts that every instance executed
by the orchestration engine is classified by the exhaustive table
(exit 0 and evidence file present gives PASS, exit 0 without a file gives
FAIL, non-zero exit gives ERROR, timeout gives TIMEOUT, with file existence
part of the PASS/FAIL split). The runner of run_fetchers.py violates the
table: an instance that raises TimeoutExpired is recorded in the summary with
status "FAIL", not "TIMEOUT", and an instance exiting 0 is recorded "PASS"
regardless of whether any evidence file exists. Concretely, a run of one
instance named s3_check_region_1 that times out, summarised over an empty
evidence directory, yields status "FAIL". -/
theorem C1_counterexample :
    (RunFetchers.create_summary_file "evidence/run" "T" []
        [("s3_check_region_1",
          RunFetchers.run_fetcher_instance true RunFetchers.RunOutcome.timedOut)]
        none).results =
      [{ check := "s3_check_region_1", resource := "region_1",
         status := "FAIL", evidence_file := none }] ∧
    ("FAIL" : String) ≠ "TIMEOUT" ∧
    RunFetchers.summaryStatus (RunFetchers.run_fetcher_instance true
      (RunFetchers.RunOutcome.exited 0)) = "PASS" := by
  refine ⟨?_, by decide, rfl⟩
  rfl

/-- Claim C1 as amended: the classification table holds exactly for the
main_fetcher.py runner (run_provider_script); the run_fetchers.py runner
instead reports only "PASS" (script found and child exited 0) or "FAIL"
(anything else, including non-zero exit, launch failure and timeout), with
evidence-file existence playing no part in its status. -/
theorem C1_amended :
    (∀ (oc : MainFetcher.ExecOutcome) (fe : Bool),
      (oc = .exited 0 → fe = true →
        MainFetcher.run_provider_script true oc fe = .PASS) ∧
      (oc = .exited 0 → fe = false →
        MainFetcher.run_provider_script true oc fe = .FAIL) ∧
      (∀ c : Nat, oc = .exited (c + 1) →
        MainFetcher.run_provider_script true oc fe = .ERROR) ∧
      (oc = .timedOut → MainFetcher.run_provider_script true oc fe = .TIMEOUT) ∧
      (oc = .osError → MainFetcher.run_provider_script true oc fe = .ERROR)) ∧
    (∀ (found : Bool) (oc : RunFetchers.RunOutcome),
      RunFetchers.summaryStatus (RunFetchers.run_fetcher_instance found oc) =
        if found = true ∧ oc = .exited 0 then "PASS" else "FAIL") := by
  constructor
  · intro oc fe
    refine ⟨?_, ?_, ?_, ?_, ?_⟩
    · rintro rfl rfl; rfl
    · rintro rfl rfl; rfl
    · rintro c rfl; rfl
    · rintro rfl; rfl
    · rintro rfl; rfl
  · intro found oc
    cases found <;> rcases oc with _ | c | _ <;>
      simp [RunFetchers.run_fetcher_instance, RunFetchers.summaryStatus]
    · rename_i c
      cases c <;> simp

/-- Witness for C1_amended at concrete inputs: exit 0 with the evidence file
missing classifies FAIL in main_fetcher.py, and a timeout classifies "FAIL"
in run_fetchers.py. -/
theorem C1_amended_witness :
    MainFetcher.run_provider_script true (.exited 0) false = .FAIL ∧
    RunFetchers.summaryStatus
      (RunFetchers.run_fetcher_instance true .timedOut) = "FAIL" := by
  constructor
  · exact (C1_amended.1 (.exited 0) false).2.1 rfl rfl
  · have h := C1_amended.2 true RunFetchers.RunOutcome.timedOut
    simpa using h

/-! ### C2 — orchestrator exit codes -/

/-- Claim C2: the orchestrator exits non-zero exactly when some instance
resolved to ERROR or TIMEOUT; FAIL alone never fails the run. For
main_fetcher.py this is the final-return computation over the collected
statuses; for run_fetchers.py, every summary status is "PASS" or "FAIL"
(ERROR and TIMEOUT cannot occur) and the process always exits 0, so the
equivalence holds there vacuously. -/
theorem C2_exit_code_iff :
    (∀ results : List MainFetcher.Status,
      MainFetcher.mainExitCode results ≠ 0 ↔
        ∃ s ∈ results, s = .ERROR ∨ s = .TIMEOUT) ∧
    (∀ (dir t : String) (listing : List String)
        (results : List (String × Bool))
        (ii : Option (List (String × RunFetchers.Inst))),
      (∀ e ∈ (RunFetchers.create_summary_file dir t listing results ii).results,
        e.status = "PASS" ∨ e.status = "FAIL") ∧
      RunFetchers.run_fetchers_exit_code = 0) := by
  constructor
  · intro results
    have hE : (MainFetcher.statusCount results .ERROR = 0) ↔
        ∀ s ∈ results, s ≠ MainFetcher.Status.ERROR := by
      simp [MainFetcher.statusCount, List.length_eq_zero,
        List.filter_eq_nil_iff]
    have hT : (MainFetcher.statusCount results .TIMEOUT = 0) ↔
        ∀ s ∈ results, s ≠ MainFetcher.Status.TIMEOUT := by
      simp [MainFetcher.statusCount, List.length_eq_zero,
        List.filter_eq_nil_iff]
    rw [MainFetcher.mainExitCode]
    by_cases hc : MainFetcher.statusCount results .ERROR = 0 ∧
        MainFetcher.statusCount results .TIMEOUT = 0
    · rw [if_pos hc]
      simp only [ne_eq, not_true_eq_false, false_iff]
      rintro ⟨s, hs, h | h⟩
      · exact (hE.mp hc.1 s hs) h
      · exact (hT.mp hc.2 s hs) h
    · rw [if_neg hc]
      simp only [ne_eq, one_ne_zero, not_false_eq_true, true_iff]
      rcases Decidable.not_and_iff_or_not.mp hc with h | h
      · obtain ⟨s, hs, hsE⟩ : ∃ s ∈ results, s = MainFetcher.Status.ERROR := by
          by_contra hno
          push_neg at hno
          exact h (hE.mpr hno)
        exact ⟨s, hs, Or.inl hsE⟩
      · obtain ⟨s, hs, hsT⟩ : ∃ s ∈ results, s = MainFetcher.Status.TIMEOUT := by
          by_contra hno
          push_neg at hno
          exact h (hT.mpr hno)
        exact ⟨s, hs, Or.inr hsT⟩
  · intro dir t listing results ii
    refine ⟨?_, rfl⟩
    intro e he
    simp only [RunFetchers.create_summary_file, List.mem_map] at he
    obtain ⟨r, _, rfl⟩ := he
    cases r.2 <;> simp [RunFetchers.summaryStatus]

/-- Witness for C2_exit_code_iff: a run with one TIMEOUT exits non-zero in
main_fetcher.py, and a concrete run_fetchers.py summary entry has status
"PASS" or "FAIL". -/
theorem C2_exit_code_iff_witness :
    MainFetcher.mainExitCode [.PASS, .TIMEOUT] ≠ 0 ∧
    (({ check := "a", resource := "unknown", status := "FAIL",
        evidence_file := none } : RunFetchers.SummaryEntry).status = "PASS" ∨
     ({ check := "a", resource := "unknown", status := "FAIL",
        evidence_file := none } : RunFetchers.SummaryEntry).status = "FAIL") := by
  have h1 := (C2_exit_code_iff.1 [.PASS, .TIMEOUT]).mpr
    ⟨.TIMEOUT, by decide, Or.inr rfl⟩
  have h2 := (C2_exit_code_iff.2 "d" "t" [] [("a", false)] none).1
    { check := "a", resource := "unknown", status := "FAIL",
      evidence_file := none } (by decide)
  exact ⟨h1, h2⟩

/-! ### C8 — summary determinism up to the timestamp -/

/-- Claim C8: the summary builder is deterministic in its inputs — two
invocations with the same results, instance information and directory listing
produce identical summary documents in every field except the timestamp. -/
theorem C8_summary_deterministic :
    ∀ (dir t₁ t₂ : String) (listing : List String)
      (results : List (String × Bool))
      (ii : Option (List (String × RunFetchers.Inst))),
      RunFetchers.create_summary_file dir t₁ listing results ii =
        { RunFetchers.create_summary_file dir t₂ listing results ii with
          timestamp := t₁ } := by
  intro dir t₁ t₂ listing results ii
  rfl

/-! ### C9 — summary count consistency -/

theorem length_filter_bool_split (l : List (String × Bool)) :
    (l.filter (fun r => r.2 == true)).length
      + (l.filter (fun r => r.2 == false)).length = l.length := by
  induction l with
  | nil => rfl
  | cons hd tl ih =>
      cases hb : hd.2 <;>
        simp only [List.filter_cons, hb] <;>
        simp only [beq_self_eq_true, beq_iff_eq, Bool.true_eq_false,
          Bool.false_eq_true, decide_True, decide_False, if_true, if_false,
          List.length_cons] <;>
        omega

/-- Claim C9: in every summary document, total_scripts equals the number of
entries of the results array, and equals successful_scripts plus
failed_scripts. -/
theorem C9_counts_consistent :
    ∀ (dir t : String) (listing : List String)
      (results : List (String × Bool))
      (ii : Option (List (String × RunFetchers.Inst))),
      (RunFetchers.create_summary_file dir t listing results ii).total_scripts =
        (RunFetchers.create_summary_file dir t listing results ii).results.length ∧
      (RunFetchers.create_summary_file dir t listing results ii).total_scripts =
        (RunFetchers.create_summary_file dir t listing results ii).successful_scripts +
          (RunFetchers.create_summary_file dir t listing results ii).failed_scripts := by
  intro dir t listing results ii
  constructor
  · simp [RunFetchers.create_summary_file]
  · simp only [RunFetchers.create_summary_file]
    exact (length_filter_bool_split results).symm

/-! ### C5 — evidence-file correlation fallback order -/

/-- Claim C5: for every instance in the results, the summary entry's evidence
file is resolved by exact match on the instance name, then by exact match on
the suffix-stripped base name, then by the first JSON stem (summary excluded)
that the base name is a prefix of or that is a prefix of the base name, and
is absent only when all three fail. In particular the instance
foo_project_1 over a directory holding only foo.json resolves to foo.json. -/
theorem C5_correlation_fallback :
    (∀ (dir t : String) (listing : List String)
        (results : List (String × Bool))
        (ii : Option (List (String × RunFetchers.Inst)))
        (name : String) (b : Bool), (name, b) ∈ results →
      ({ check := name
         resource := RunFetchers.extractResource ii name
         status := RunFetchers.summaryStatus b
         evidence_file :=
           (RunFetchers.findEvidenceFile
             (listing.filter (fun s => !(s == "summary"))) name).map
             (RunFetchers.evidencePath dir) } : RunFetchers.SummaryEntry)
        ∈ (RunFetchers.create_summary_file dir t listing results ii).results) ∧
    (∀ (jf : List String) (name : String),
      (name ∈ jf → RunFetchers.findEvidenceFile jf name = some name) ∧
      (name ∉ jf → RunFetchers.stripInstanceSuffix name ∈ jf →
        RunFetchers.findEvidenceFile jf name =
          some (RunFetchers.stripInstanceSuffix name)) ∧
      (name ∉ jf → RunFetchers.stripInstanceSuffix name ∉ jf →
        RunFetchers.findEvidenceFile jf name =
          jf.find? (fun stem =>
            RunFetchers.strStartsWith stem (RunFetchers.stripInstanceSuffix name)
              || RunFetchers.strStartsWith
                   (RunFetchers.stripInstanceSuffix name) stem)) ∧
      (name ∉ jf → RunFetchers.stripInstanceSuffix name ∉ jf →
        (∀ stem ∈ jf,
          (RunFetchers.strStartsWith stem (RunFetchers.stripInstanceSuffix name)
            || RunFetchers.strStartsWith
                 (RunFetchers.stripInstanceSuffix name) stem) = false) →
        RunFetchers.findEvidenceFile jf name = none)) ∧
    RunFetchers.findEvidenceFile ["foo"] "foo_project_1" = some "foo" := by
  refine ⟨?_, ?_, rfl⟩
  · intro dir t listing results ii name b hmem
    simp only [RunFetchers.create_summary_file, List.mem_map]
    exact ⟨(name, b), hmem, rfl⟩
  · intro jf name
    refine ⟨?_, ?_, ?_, ?_⟩
    · intro h
      rw [RunFetchers.findEvidenceFile, if_pos (List.elem_iff.mpr h)]
    · intro h1 h2
      rw [RunFetchers.findEvidenceFile,
        if_neg (fun hc => h1 (List.elem_iff.mp hc))]
      simp only
      rw [if_pos (List.elem_iff.mpr h2)]
    · intro h1 h2
      rw [RunFetchers.findEvidenceFile,
        if_neg (fun hc => h1 (List.elem_iff.mp hc))]
      simp only
      rw [if_neg (fun hc => h2 (List.elem_iff.mp hc))]
    · intro h1 h2 h3
      rw [RunFetchers.findEvidenceFile,
        if_neg (fun hc => h1 (List.elem_iff.mp hc))]
      simp only
      rw [if_neg (fun hc => h2 (List.elem_iff.mp hc))]
      rw [List.find?_eq_none]
      intro stem hs
      rw [h3 stem hs]
      simp

/-- Witness for C5_correlation_fallback: the suffix-stripped fallback and the
entry shape, at the concrete run of foo_project_1 over listing [foo]. -/
theorem C5_correlation_fallback_witness :
    ({ check := "foo_project_1", resource := "project_1", status := "PASS",
       evidence_file := some "evidence/run/foo.json" } :
        RunFetchers.SummaryEntry)
      ∈ (RunFetchers.create_summary_file "evidence/run" "T" ["foo"]
          [("foo_project_1", true)] none).results ∧
    RunFetchers.findEvidenceFile ["foo", "bar"] "bar" = some "bar" := by
  constructor
  · exact C5_correlation_fallback.1 "evidence/run" "T" ["foo"]
      [("foo_project_1", true)] none "foo_project_1" true (by decide)
  · exact (C5_correlation_fallback.2.1 ["foo", "bar"] "bar").1 (by decide)

/-! ### C6 — resource-label extraction -/

/-- Claim C6, counterexample. The claim asserts that when the looked-up
binding carries no resource field the resource falls back to the
multiplication-group label parsed from the instance name, with "unknown"
only when neither source is available. In the code the instance-name parsing
branch runs only when no instance-info map was passed at all: with a map
present that does not contain the entry's name, the name foo_project_1 gets
resource "unknown", not "project_1". -/
theorem C6_counterexample :
    (RunFetchers.create_summary_file "d" "t" [] [("foo_project_1", true)]
        (some [("other_instance",
          { script_name := "other", script_data := "d0",
            instance_name := "other_instance", provider := "gitlab",
            config := [("GITLAB_PROJECT_ID", "7")] })])).results.map
      (fun e => e.resource) = ["unknown"] ∧
    ("unknown" : String) ≠ "project_1" ∧
    RunFetchers.fallbackResource "foo_project_1" = "project_1" := by
  exact ⟨rfl, by decide, rfl⟩

/-- Claim C6 as amended: with an instance-info map supplied and the instance
found in it, the resource follows the priority GitLab project id, then AWS
region, then AWS profile, and is "unknown" when none of the three applies or
when the instance is absent from the map; the multiplication-group label
parsed from the instance name is used only when no instance-info map was
supplied at all, with "unknown" when that parse also fails. -/
theorem C6_amended :
    ∀ (m : List (String × RunFetchers.Inst)) (name : String),
      (∀ i : RunFetchers.Inst, RunFetchers.lookupA m name = some i →
        ((i.provider = "gitlab" ∧
            RunFetchers.hasKey i.config "GITLAB_PROJECT_ID" = true) →
          RunFetchers.extractResource (some m) name =
            RunFetchers.envGet i.config "GITLAB_PROJECT_ID" "unknown") ∧
        (¬(i.provider = "gitlab" ∧
            RunFetchers.hasKey i.config "GITLAB_PROJECT_ID" = true) →
          (i.provider = "aws" ∧ RunFetchers.hasKey i.config "AWS_REGION" = true) →
          RunFetchers.extractResource (some m) name =
            RunFetchers.envGet i.config "AWS_REGION" "unknown") ∧
        (¬(i.provider = "gitlab" ∧
            RunFetchers.hasKey i.config "GITLAB_PROJECT_ID" = true) →
          ¬(i.provider = "aws" ∧ RunFetchers.hasKey i.config "AWS_REGION" = true) →
          (i.provider = "aws" ∧ RunFetchers.hasKey i.config "AWS_PROFILE" = true) →
          RunFetchers.extractResource (some m) name =
            RunFetchers.envGet i.config "AWS_PROFILE" "unknown") ∧
        (¬(i.provider = "gitlab" ∧
            RunFetchers.hasKey i.config "GITLAB_PROJECT_ID" = true) →
          ¬(i.provider = "aws" ∧ RunFetchers.hasKey i.config "AWS_REGION" = true) →
          ¬(i.provider = "aws" ∧ RunFetchers.hasKey i.config "AWS_PROFILE" = true) →
          RunFetchers.extractResource (some m) name = "unknown")) ∧
      (RunFetchers.lookupA m name = none →
        RunFetchers.extractResource (some m) name = "unknown") ∧
      RunFetchers.extractResource none name =
        RunFetchers.fallbackResource name ∧
      RunFetchers.extractResource none "foo_project_1" = "project_1" := by
  intro m name
  refine ⟨?_, ?_, rfl, rfl⟩
  · intro i hi
    refine ⟨?_, ?_, ?_, ?_⟩
    · intro h1
      simp only [RunFetchers.extractResource, hi]
      rw [if_pos h1]
    · intro h1 h2
      simp only [RunFetchers.extractResource, hi]
      rw [if_neg h1, if_pos h2]
    · intro h1 h2 h3
      simp only [RunFetchers.extractResource, hi]
      rw [if_neg h1, if_neg h2, if_pos h3]
    · intro h1 h2 h3
      simp only [RunFetchers.extractResource, hi]
      rw [if_neg h1, if_neg h2, if_neg h3]
  · intro hn
    simp only [RunFetchers.extractResource, hn]

/-- Witness for C6_amended: an AWS instance found in the map reports its
AWS_REGION value; an instance absent from the map reports "unknown". -/
theorem C6_amended_witness :
    RunFetchers.extractResource
      (some [("a_region_1",
        { script_name := "a", script_data := "d", instance_name := "a_region_1",
          provider := "aws",
          config := [("AWS_PROFILE", "p"), ("AWS_REGION", "use1")] })])
      "a_region_1" = "use1" ∧
    RunFetchers.extractResource
      (some [("a_region_1",
        { script_name := "a", script_data := "d", instance_name := "a_region_1",
          provider := "aws",
          config := [("AWS_PROFILE", "p"), ("AWS_REGION", "use1")] })])
      "zzz" = "unknown" := by
  constructor
  · have h := ((C6_amended
      [("a_region_1",
        { script_name := "a", script_data := "d", instance_name := "a_region_1",
          provider := "aws",
          config := [("AWS_PROFILE", "p"), ("AWS_REGION", "use1")] })]
      "a_region_1").1
      { script_name := "a", script_data := "d", instance_name := "a_region_1",
        provider := "aws",
        config := [("AWS_PROFILE", "p"), ("AWS_REGION", "use1")] }
      rfl).2.1 (by decide) ⟨rfl, by decide⟩
    simpa using h
  · exact (C6_amended
      [("a_region_1",
        { script_name := "a", script_data := "d", instance_name := "a_region_1",
          provider := "aws",
          config := [("AWS_PROFILE", "p"), ("AWS_REGION", "use1")] })]
      "zzz").2.1 rfl

/-! ### C10 — AWS-region group defaults -/

/-- Claim C10: a valid AWS-region group that supplies fetchers but omits the
REGION key gets the group's index string itself as region (not the ambient
AWS_DEFAULT_REGION), and an omitted PROFILE key defaults to the ambient
AWS_PROFILE value or the empty string; such a group is expanded normally. -/
theorem C10_aws_region_defaults :
    ∀ (env : RunFetchers.Env) (n : String) (cfg : RunFetchers.Env),
      RunFetchers.lookupA (RunFetchers.collectGroups "AWS_REGION_" env) n =
        some cfg →
      RunFetchers.hasKey cfg "fetchers" = true →
      RunFetchers.mkAwsRegion env n cfg ∈
        (RunFetchers.parse_multi_instance_config env).aws_regions ∧
      (RunFetchers.hasKey cfg "region" = false →
        (RunFetchers.mkAwsRegion env n cfg).region = n) ∧
      (RunFetchers.hasKey cfg "profile" = false →
        (RunFetchers.mkAwsRegion env n cfg).profile =
          RunFetchers.envGet env "AWS_PROFILE" "") := by
  intro env n cfg hlk hfet
  refine ⟨?_, ?_, ?_⟩
  · simp only [RunFetchers.parse_multi_instance_config]
    exact List.mem_filterMap.mpr
      ⟨(n, cfg), RunFetchers.lookupA_mem hlk, by simp [hfet]⟩
  · intro hr
    cases hl : RunFetchers.lookupA cfg "region" with
    | none => simp [RunFetchers.mkAwsRegion, RunFetchers.envGet, hl]
    | some v => rw [RunFetchers.hasKey, hl] at hr; cases hr
  · intro hp
    cases hl : RunFetchers.lookupA cfg "profile" with
    | none => simp [RunFetchers.mkAwsRegion, RunFetchers.envGet, hl]
    | some v => rw [RunFetchers.hasKey, hl] at hp; cases hp

/-- Witness for C10_aws_region_defaults: the environment defining only
AWS_REGION_7_FETCHERS (and an ambient AWS_PROFILE) yields a region whose
region field is the index string "7" and whose profile is the ambient one. -/
theorem C10_aws_region_defaults_witness :
    RunFetchers.mkAwsRegion [("AWS_REGION_7_FETCHERS", "c"), ("AWS_PROFILE", "amb")]
        "7" [("fetchers", "c")] ∈
      (RunFetchers.parse_multi_instance_config
        [("AWS_REGION_7_FETCHERS", "c"), ("AWS_PROFILE", "amb")]).aws_regions ∧
    (RunFetchers.mkAwsRegion [("AWS_REGION_7_FETCHERS", "c"), ("AWS_PROFILE", "amb")]
        "7" [("fetchers", "c")]).region = "7" ∧
    (RunFetchers.mkAwsRegion [("AWS_REGION_7_FETCHERS", "c"), ("AWS_PROFILE", "amb")]
        "7" [("fetchers", "c")]).profile = "amb" := by
  have h := C10_aws_region_defaults
    [("AWS_REGION_7_FETCHERS", "c"), ("AWS_PROFILE", "amb")] "7"
    [("fetchers", "c")] rfl rfl
  exact ⟨h.1, h.2.1 rfl, by rw [h.2.2 rfl]; rfl⟩

/-! ### C4 — incomplete multiplication groups are silently dropped -/

/-- Claim C4: a multiplication group missing a mandatory key (url,
api_access_token, id or fetchers for GitLab groups; fetchers for AWS-region
groups) contributes no parsed group and no instance, without error, while
every group carrying all its mandatory keys is still expanded normally. -/
theorem C4_incomplete_group_excluded :
    ∀ env : RunFetchers.Env,
      (∀ (n : String) (cfg : RunFetchers.Env),
        RunFetchers.lookupA (RunFetchers.collectGroups "GITLAB_PROJECT_" env) n =
          some cfg →
        RunFetchers.gitlabValid cfg = false →
        (∀ p ∈ (RunFetchers.parse_multi_instance_config env).gitlab_projects,
          p.name ≠ "project_" ++ n) ∧
        (∀ es : RunFetchers.EvidenceSets,
          ∀ i ∈ RunFetchers.create_fetcher_instances es
              (RunFetchers.parse_multi_instance_config env),
            i.provider = "gitlab" →
            i.instance_name ≠ i.script_name ++ "_" ++ ("project_" ++ n))) ∧
      (∀ (n : String) (cfg : RunFetchers.Env),
        RunFetchers.lookupA (RunFetchers.collectGroups "AWS_REGION_" env) n =
          some cfg →
        RunFetchers.hasKey cfg "fetchers" = false →
        (∀ r ∈ (RunFetchers.parse_multi_instance_config env).aws_regions,
          r.name ≠ "region_" ++ n) ∧
        (∀ es : RunFetchers.EvidenceSets,
          ∀ i ∈ RunFetchers.create_fetcher_instances es
              (RunFetchers.parse_multi_instance_config env),
            i.provider = "aws" →
            i.instance_name ≠ i.script_name ++ "_" ++ ("region_" ++ n))) ∧
      (∀ (m : String) (cfg : RunFetchers.Env),
        RunFetchers.lookupA (RunFetchers.collectGroups "GITLAB_PROJECT_" env) m =
          some cfg →
        RunFetchers.gitlabValid cfg = true →
        RunFetchers.mkGitlabProject m cfg ∈
          (RunFetchers.parse_multi_instance_config env).gitlab_projects) := by
  intro env
  refine ⟨?_, ?_, ?_⟩
  · intro n cfg hlk hinv
    have hname : ∀ p ∈ (RunFetchers.parse_multi_instance_config env).gitlab_projects,
        p.name ≠ "project_" ++ n := by
      intro p hp heq
      simp only [RunFetchers.parse_multi_instance_config] at hp
      obtain ⟨⟨m, cfgm⟩, hmem, hmk⟩ := List.mem_filterMap.mp hp
      by_cases hv : RunFetchers.gitlabValid cfgm = true
      · rw [if_pos hv] at hmk
        cases hmk
        have hmn : m = n := RunFetchers.str_append_cancel_left
          (by simpa [RunFetchers.mkGitlabProject] using heq)
        subst hmn
        rw [RunFetchers.mem_lookupA
          (RunFetchers.collectGroups_keys_nodup _ env) hmem] at hlk
        cases hlk
        rw [hv] at hinv
        cases hinv
      · rw [if_neg hv] at hmk
        cases hmk
    refine ⟨hname, ?_⟩
    intro es i hi hprov heq
    rcases RunFetchers.mem_create_fetcher_instances.mp hi with
      ⟨p, hp, hgi⟩ | ⟨r, hr, hai⟩
    · obtain ⟨_, hiname, _, _⟩ := RunFetchers.mem_gitlabInstances hgi
      rw [hiname] at heq
      exact hname p hp (RunFetchers.str_append_cancel_left heq)
    · obtain ⟨hpr, _, _, _⟩ := RunFetchers.mem_awsInstances hai
      rw [hpr] at hprov
      exact absurd hprov (by decide)
  · intro n cfg hlk hinv
    have hname : ∀ r ∈ (RunFetchers.parse_multi_instance_config env).aws_regions,
        r.name ≠ "region_" ++ n := by
      intro r hr heq
      simp only [RunFetchers.parse_multi_instance_config] at hr
      obtain ⟨⟨m, cfgm⟩, hmem, hmk⟩ := List.mem_filterMap.mp hr
      by_cases hv : RunFetchers.hasKey cfgm "fetchers" = true
      · rw [if_pos hv] at hmk
        cases hmk
        have hmn : m = n := RunFetchers.str_append_cancel_left
          (by simpa [RunFetchers.mkAwsRegion] using heq)
        subst hmn
        rw [RunFetchers.mem_lookupA
          (RunFetchers.collectGroups_keys_nodup _ env) hmem] at hlk
        cases hlk
        rw [hv] at hinv
        cases hinv
      · rw [if_neg hv] at hmk
        cases hmk
    refine ⟨hname, ?_⟩
    intro es i hi hprov heq
    rcases RunFetchers.mem_create_fetcher_instances.mp hi with
      ⟨p, hp, hgi⟩ | ⟨r, hr, hai⟩
    · obtain ⟨hpr, _, _, _⟩ := RunFetchers.mem_gitlabInstances hgi
      rw [hpr] at hprov
      exact absurd hprov (by decide)
    · obtain ⟨_, hiname, _, _⟩ := RunFetchers.mem_awsInstances hai
      rw [hiname] at heq
      exact hname r hr (RunFetchers.str_append_cancel_left heq)
  · intro m cfg hlk hv
    simp only [RunFetchers.parse_multi_instance_config]
    exact List.mem_filterMap.mpr
      ⟨(m, cfg), RunFetchers.lookupA_mem hlk, by simp [hv]⟩

/-- Witness for C4_incomplete_group_excluded: in an environment whose GitLab
group 1 defines only a URL while group 2 is complete, group 1 yields no
project named project_1 and group 2 is still expanded. -/
theorem C4_incomplete_group_excluded_witness :
    "project_1" ∉
      ((RunFetchers.parse_multi_instance_config
        [("GITLAB_PROJECT_1_URL", "u1"),
         ("GITLAB_PROJECT_2_URL", "u2"),
         ("GITLAB_PROJECT_2_API_ACCESS_TOKEN", "t2"),
         ("GITLAB_PROJECT_2_ID", "42"),
         ("GITLAB_PROJECT_2_FETCHERS", "a")]).gitlab_projects.map
        RunFetchers.GitlabProject.name) ∧
    RunFetchers.mkGitlabProject "2"
        [("url", "u2"), ("api_access_token", "t2"), ("id", "42"),
         ("fetchers", "a")] ∈
      (RunFetchers.parse_multi_instance_config
        [("GITLAB_PROJECT_1_URL", "u1"),
         ("GITLAB_PROJECT_2_URL", "u2"),
         ("GITLAB_PROJECT_2_API_ACCESS_TOKEN", "t2"),
         ("GITLAB_PROJECT_2_ID", "42"),
         ("GITLAB_PROJECT_2_FETCHERS", "a")]).gitlab_projects := by
  have h := C4_incomplete_group_excluded
    [("GITLAB_PROJECT_1_URL", "u1"),
     ("GITLAB_PROJECT_2_URL", "u2"),
     ("GITLAB_PROJECT_2_API_ACCESS_TOKEN", "t2"),
     ("GITLAB_PROJECT_2_ID", "42"),
     ("GITLAB_PROJECT_2_FETCHERS", "a")]
  constructor
  · intro hmem
    obtain ⟨p, hp, hpn⟩ := List.mem_map.mp hmem
    exact (h.1 "1" [("url", "u1")] rfl rfl).1 p hp hpn
  · exact h.2.2 "2"
      [("url", "u2"), ("api_access_token", "t2"), ("id", "42"),
       ("fetchers", "a")] rfl rfl

/-! ### C7 — no abort, one attempt, one entry per instance -/

namespace RunFetchers

theorem updateA_fresh {β : Type} (acc : List (String × β)) (k : String) (v : β)
    (h : ∀ kv ∈ acc, kv.1 ≠ k) : updateA acc k v = acc ++ [(k, v)] := by
  induction acc with
  | nil => rfl
  | cons hd tl ih =>
      obtain ⟨a, b⟩ := hd
      rw [updateA, if_neg (h (a, b) (List.mem_cons_self _ _))]
      rw [ih (fun kv hkv => h kv (List.mem_cons_of_mem _ hkv))]
      rfl

theorem foldl_updateA_append {α : Type} (f : α → String) (g : α → Bool) :
    ∀ (l : List α) (acc : List (String × Bool)),
      (l.map f).Nodup → (∀ a ∈ l, ∀ kv ∈ acc, kv.1 ≠ f a) →
      l.foldl (fun acc a => updateA acc (f a) (g a)) acc =
        acc ++ l.map (fun a => (f a, g a)) := by
  intro l
  induction l with
  | nil => intro acc _ _; simp
  | cons hd tl ih =>
      intro acc hnd hfresh
      simp only [List.map_cons, List.nodup_cons] at hnd
      rw [List.foldl_cons,
        updateA_fresh acc (f hd) (g hd)
          (fun kv hkv => hfresh hd (List.mem_cons_self _ _) kv hkv)]
      rw [ih (acc ++ [(f hd, g hd)]) hnd.2 ?fresh]
      · simp
      case fresh =>
        intro a ha kv hkv
        rcases List.mem_append.mp hkv with hin | hin
        · exact hfresh a (List.mem_cons_of_mem _ ha) kv hin
        · rw [List.mem_singleton.mp hin]
          intro hc
          apply hnd.1
          rw [show f hd = f a from hc]
          exact List.mem_map.mpr ⟨a, ha, rfl⟩

end RunFetchers

/-- Claim C7: a failing instance (non-zero exit, exception or timeout) never
aborts the run — the execution loop of run_fetchers.py processes every
instance exactly once, in order, each instance's entry being the boolean
outcome of its single run_fetcher_instance call, and (with the data model's
guarantee that instance names are unique within the run) every instance
contributes exactly one entry of the results dict. -/
theorem C7_no_abort_single_attempt :
    ∀ (instances : List RunFetchers.Inst)
      (oracle : RunFetchers.Inst → Bool × RunFetchers.RunOutcome),
      (instances.map RunFetchers.Inst.instance_name).Nodup →
      RunFetchers.runInstances instances oracle =
        instances.map (fun i => (i.instance_name,
          RunFetchers.run_fetcher_instance (oracle i).1 (oracle i).2)) ∧
      (RunFetchers.runInstances instances oracle).length = instances.length ∧
      ∀ i ∈ instances,
        RunFetchers.lookupA (RunFetchers.runInstances instances oracle)
          i.instance_name =
          some (RunFetchers.run_fetcher_instance (oracle i).1 (oracle i).2) := by
  intro instances oracle hnd
  have heq : RunFetchers.runInstances instances oracle =
      instances.map (fun i => (i.instance_name,
        RunFetchers.run_fetcher_instance (oracle i).1 (oracle i).2)) := by
    rw [RunFetchers.runInstances]
    rw [RunFetchers.foldl_updateA_append
      RunFetchers.Inst.instance_name
      (fun i => RunFetchers.run_fetcher_instance (oracle i).1 (oracle i).2)
      instances [] hnd (by intro a _ kv hkv; cases hkv)]
    simp
  refine ⟨heq, by rw [heq]; simp, ?_⟩
  intro i hi
  rw [heq]
  apply RunFetchers.mem_lookupA
  · have : (instances.map (fun i => (i.instance_name,
        RunFetchers.run_fetcher_instance (oracle i).1 (oracle i).2))).map
          Prod.fst = instances.map RunFetchers.Inst.instance_name := by
      simp
    rw [this]
    exact hnd
  · exact List.mem_map.mpr ⟨i, hi, rfl⟩

/-- Witness for C7_no_abort_single_attempt: a two-instance run whose first
instance times out still runs the second and records both entries. -/
theorem C7_no_abort_single_attempt_witness :
    RunFetchers.runInstances
      [{ script_name := "a", script_data := "d", instance_name := "a_region_1",
         provider := "aws", config := [] },
       { script_name := "b", script_data := "d", instance_name := "b_region_1",
         provider := "aws", config := [] }]
      (fun i => if i.instance_name = "a_region_1"
        then (true, RunFetchers.RunOutcome.timedOut)
        else (true, RunFetchers.RunOutcome.exited 0)) =
      [("a_region_1", false), ("b_region_1", true)] := by
  rw [(C7_no_abort_single_attempt
    [{ script_name := "a", script_data := "d", instance_name := "a_region_1",
       provider := "aws", config := [] },
     { script_name := "b", script_data := "d", instance_name := "b_region_1",
       provider := "aws", config := [] }]
    (fun i => if i.instance_name = "a_region_1"
      then (true, RunFetchers.RunOutcome.timedOut)
      else (true, RunFetchers.RunOutcome.exited 0)) (by decide)).1]
  rfl

/-! ### C3 — expansion completeness -/

namespace RunFetchers

theorem filterMap_congr_some {α β : Type} (f : α → Option β) (g : α → β) :
    ∀ l : List α, (∀ a ∈ l, f a = some (g a)) → l.filterMap f = l.map g := by
  intro l
  induction l with
  | nil => intro _; rfl
  | cons hd tl ih =>
      intro h
      rw [List.filterMap_cons, h hd (List.mem_cons_self _ _), List.map_cons,
        ih (fun a ha => h a (List.mem_cons_of_mem _ ha))]

theorem filterMap_sublist_map {α β : Type} (f : α → Option β) (g : α → β)
    (hfg : ∀ a, f a = none ∨ f a = some (g a)) :
    ∀ l : List α, List.Sublist (l.filterMap f) (l.map g) := by
  intro l
  induction l with
  | nil => simp
  | cons hd tl ih =>
      rw [List.filterMap_cons, List.map_cons]
      rcases hfg hd with h | h
      · rw [h]
        exact ih.cons _
      · rw [h]
        exact ih.cons₂ _

theorem gitlabInstances_names (es : EvidenceSets) (p : GitlabProject)
    (h : ∀ f ∈ p.fetchers, (lookupA es f).isSome = true) :
    (gitlabInstances es p).map Inst.instance_name =
      p.fetchers.map (fun f => f ++ "_" ++ p.name) := by
  rw [gitlabInstances, List.map_filterMap]
  apply filterMap_congr_some
  intro a ha
  cases hlk : lookupA es a with
  | none =>
      have hsome := h a ha
      rw [hlk] at hsome
      cases hsome
  | some d => simp

theorem awsInstances_names (es : EvidenceSets) (r : AwsRegion)
    (h : ∀ f ∈ r.fetchers, (lookupA es f).isSome = true) :
    (awsInstances es r).map Inst.instance_name =
      r.fetchers.map (fun f => f ++ "_" ++ r.name) := by
  rw [awsInstances, List.map_filterMap]
  apply filterMap_congr_some
  intro a ha
  cases hlk : lookupA es a with
  | none =>
      have hsome := h a ha
      rw [hlk] at hsome
      cases hsome
  | some d => simp

/-- A multiplication-group label of the shape the parser produces:
project_ or region_ followed by a nonempty digit string. -/
def canonicalLabel (lab : String) : Prop :=
  (∃ s : String, lab = "project_" ++ s ∧ s.data ≠ [] ∧
    ∀ c ∈ s.data, c.isDigit = true) ∨
  (∃ s : String, lab = "region_" ++ s ∧ s.data ≠ [] ∧
    ∀ c ∈ s.data, c.isDigit = true)

theorem project_label_ne_region_label (a b : String) :
    "project_" ++ a ≠ "region_" ++ b := by
  intro h
  have h2 := congrArg String.data h
  rw [String.data_append, String.data_append,
    show "project_".data = ['p', 'r', 'o', 'j', 'e', 'c', 't', '_'] from rfl,
    show "region_".data = ['r', 'e', 'g', 'i', 'o', 'n', '_'] from rfl] at h2
  simp at h2

theorem takeWhile_append_of_all {p : Char → Bool} :
    ∀ {l1 l2 : List Char}, (∀ a ∈ l1, p a = true) →
      (l1 ++ l2).takeWhile p = l1 ++ l2.takeWhile p := by
  intro l1
  induction l1 with
  | nil => intro l2 _; rfl
  | cons hd tl ih =>
      intro l2 h
      rw [List.cons_append, List.takeWhile_cons,
        if_pos (h hd (List.mem_cons_self _ _)),
        ih (fun a ha => h a (List.mem_cons_of_mem _ ha))]
      rfl

theorem parse_gitlab_canonical (env : Env) :
    ∀ p ∈ (parse_multi_instance_config env).gitlab_projects,
      ∃ s : String, p.name = "project_" ++ s ∧ s.data ≠ [] ∧
        ∀ c ∈ s.data, c.isDigit = true := by
  intro p hp
  simp only [parse_multi_instance_config] at hp
  obtain ⟨⟨m, cfg⟩, hmem, hmk⟩ := List.mem_filterMap.mp hp
  by_cases hv : gitlabValid cfg = true
  · rw [if_pos hv] at hmk
    cases hmk
    obtain ⟨h1, h2⟩ := collectGroups_keys_digits "GITLAB_PROJECT_" env m
      (List.mem_map.mpr ⟨(m, cfg), hmem, rfl⟩)
    exact ⟨m, rfl, h1, h2⟩
  · rw [if_neg hv] at hmk
    cases hmk

theorem parse_aws_canonical (env : Env) :
    ∀ r ∈ (parse_multi_instance_config env).aws_regions,
      ∃ s : String, r.name = "region_" ++ s ∧ s.data ≠ [] ∧
        ∀ c ∈ s.data, c.isDigit = true := by
  intro r hr
  simp only [parse_multi_instance_config] at hr
  obtain ⟨⟨m, cfg⟩, hmem, hmk⟩ := List.mem_filterMap.mp hr
  by_cases hv : hasKey cfg "fetchers" = true
  · rw [if_pos hv] at hmk
    cases hmk
    obtain ⟨h1, h2⟩ := collectGroups_keys_digits "AWS_REGION_" env m
      (List.mem_map.mpr ⟨(m, cfg), hmem, rfl⟩)
    exact ⟨m, rfl, h1, h2⟩
  · rw [if_neg hv] at hmk
    cases hmk

theorem parse_gitlab_names_nodup (env : Env) :
    (((parse_multi_instance_config env).gitlab_projects).map
      GitlabProject.name).Nodup := by
  simp only [parse_multi_instance_config, List.map_filterMap]
  have hsub := filterMap_sublist_map
    (fun g : String × Env => Option.map GitlabProject.name
      (if gitlabValid g.2 = true then some (mkGitlabProject g.1 g.2) else none))
    (fun g : String × Env => "project_" ++ g.1)
    (by
      intro g
      by_cases hv : gitlabValid g.2 = true
      · right
        simp [hv, mkGitlabProject]
      · left
        simp [hv])
    (collectGroups "GITLAB_PROJECT_" env)
  have hnd : ((collectGroups "GITLAB_PROJECT_" env).map
      (fun g : String × Env => "project_" ++ g.1)).Nodup := by
    rw [show (fun g : String × Env => "project_" ++ g.1) =
      (fun k => "project_" ++ k) ∘ Prod.fst from rfl, ← List.map_map]
    exact (collectGroups_keys_nodup "GITLAB_PROJECT_" env).map
      (fun a b h => str_append_cancel_left h)
  exact hsub.nodup hnd

theorem parse_aws_names_nodup (env : Env) :
    (((parse_multi_instance_config env).aws_regions).map
      AwsRegion.name).Nodup := by
  simp only [parse_multi_instance_config, List.map_filterMap]
  have hsub := filterMap_sublist_map
    (fun g : String × Env => Option.map AwsRegion.name
      (if hasKey g.2 "fetchers" = true then some (mkAwsRegion env g.1 g.2)
        else none))
    (fun g : String × Env => "region_" ++ g.1)
    (by
      intro g
      by_cases hv : hasKey g.2 "fetchers" = true
      · right
        simp [hv, mkAwsRegion]
      · left
        simp [hv])
    (collectGroups "AWS_REGION_" env)
  have hnd : ((collectGroups "AWS_REGION_" env).map
      (fun g : String × Env => "region_" ++ g.1)).Nodup := by
    rw [show (fun g : String × Env => "region_" ++ g.1) =
      (fun k => "region_" ++ k) ∘ Prod.fst from rfl, ← List.map_map]
    exact (collectGroups_keys_nodup "AWS_REGION_" env).map
      (fun a b h => str_append_cancel_left h)
  exact hsub.nodup hnd

theorem suffix_of_suffix_length_le {l1 l2 l3 : List Char}
    (h1 : l1 <:+ l3) (h2 : l2 <:+ l3) (hle : l1.length ≤ l2.length) :
    l1 <:+ l2 := by
  rw [← List.reverse_prefix] at h1 h2 ⊢
  exact List.prefix_of_prefix_length_le h1 h2 (by simpa using hle)

theorem stripInstanceSuffix_mk (f : String) (w : List Char) (s : String)
    (hws : w = "_project_".data ∨ w = "_region_".data)
    (hs : s.data ≠ []) (hdig : ∀ c ∈ s.data, c.isDigit = true) :
    stripInstanceSuffix (String.mk ((f.data ++ w) ++ s.data)) = f := by
  have hd : (((f.data ++ w) ++ s.data).reverse.takeWhile Char.isDigit) =
      s.data.reverse := by
    rw [List.reverse_append]
    rw [takeWhile_append_of_all
      (fun a ha => hdig a (List.mem_reverse.mp ha))]
    have hw0 : ((f.data ++ w).reverse).takeWhile Char.isDigit = [] := by
      rw [List.reverse_append]
      rcases hws with rfl | rfl <;> rfl
    rw [hw0, List.append_nil]
  simp only [stripInstanceSuffix]
  rw [hd, List.length_reverse]
  rw [if_neg (fun h0 => hs (List.length_eq_zero.mp h0))]
  have harith : ((f.data ++ w) ++ s.data).length - s.data.length =
      (f.data ++ w).length := by
    rw [List.length_append]
    omega
  rw [harith, List.take_left]
  rcases hws with rfl | rfl
  · rw [if_pos (List.suffix_append _ _)]
    have h9 : (f.data ++ "_project_".data).length - 9 = f.data.length := by
      rw [List.length_append, show ("_project_".data).length = 9 from rfl]
      omega
    rw [h9, List.take_left]
  · rw [if_neg ?notproj]
    case notproj =>
      intro hsuf
      have h8 : "_region_".data <:+ f.data ++ "_region_".data :=
        List.suffix_append _ _
      have hcontra : "_region_".data <:+ "_project_".data :=
        suffix_of_suffix_length_le h8 hsuf (by decide)
      exact absurd hcontra (by decide)
    rw [if_pos (List.suffix_append _ _)]
    have h8 : (f.data ++ "_region_".data).length - 8 = f.data.length := by
      rw [List.length_append, show ("_region_".data).length = 8 from rfl]
      omega
    rw [h8, List.take_left]

theorem stripInstanceSuffix_label (fn lab : String) (h : canonicalLabel lab) :
    stripInstanceSuffix (fn ++ "_" ++ lab) = fn := by
  rcases h with ⟨s, rfl, hs, hdig⟩ | ⟨s, rfl, hs, hdig⟩
  · have hdata : fn ++ "_" ++ ("project_" ++ s) =
        String.mk ((fn.data ++ "_project_".data) ++ s.data) := by
      apply String.ext
      simp only [String.data_append, List.append_assoc]
      rfl
    rw [hdata]
    exact stripInstanceSuffix_mk fn _ s (Or.inl rfl) hs hdig
  · have hdata : fn ++ "_" ++ ("region_" ++ s) =
        String.mk ((fn.data ++ "_region_".data) ++ s.data) := by
      apply String.ext
      simp only [String.data_append, List.append_assoc]
      rfl
    rw [hdata]
    exact stripInstanceSuffix_mk fn _ s (Or.inr rfl) hs hdig

theorem instance_name_inj {f1 f2 l1 l2 : String}
    (h1 : canonicalLabel l1) (h2 : canonicalLabel l2)
    (heq : f1 ++ "_" ++ l1 = f2 ++ "_" ++ l2) : f1 = f2 ∧ l1 = l2 := by
  have hstrip := congrArg stripInstanceSuffix heq
  rw [stripInstanceSuffix_label f1 l1 h1,
    stripInstanceSuffix_label f2 l2 h2] at hstrip
  subst hstrip
  exact ⟨rfl, str_append_cancel_left heq⟩

end RunFetchers

/-- Claim C3, counterexample. The claim asserts that N valid, fully-populated
multiplication groups referencing only catalog fetchers produce exactly N
instances. A single GitLab group whose fetchers list names the two catalog
fetchers a and b produces two instances, not one. -/
theorem C3_counterexample :
    (RunFetchers.parse_multi_instance_config
        [("GITLAB_PROJECT_1_URL", "u"),
         ("GITLAB_PROJECT_1_API_ACCESS_TOKEN", "t"),
         ("GITLAB_PROJECT_1_ID", "42"),
         ("GITLAB_PROJECT_1_FETCHERS", "a,b")]).gitlab_projects.length +
      (RunFetchers.parse_multi_instance_config
        [("GITLAB_PROJECT_1_URL", "u"),
         ("GITLAB_PROJECT_1_API_ACCESS_TOKEN", "t"),
         ("GITLAB_PROJECT_1_ID", "42"),
         ("GITLAB_PROJECT_1_FETCHERS", "a,b")]).aws_regions.length = 1 ∧
    (RunFetchers.parse_multi_instance_config
        [("GITLAB_PROJECT_1_URL", "u"),
         ("GITLAB_PROJECT_1_API_ACCESS_TOKEN", "t"),
         ("GITLAB_PROJECT_1_ID", "42"),
         ("GITLAB_PROJECT_1_FETCHERS", "a,b")]).gitlab_projects.map
      (fun p => p.fetchers) = [["a", "b"]] ∧
    (RunFetchers.create_fetcher_instances [("a", "da"), ("b", "db")]
      (RunFetchers.parse_multi_instance_config
        [("GITLAB_PROJECT_1_URL", "u"),
         ("GITLAB_PROJECT_1_API_ACCESS_TOKEN", "t"),
         ("GITLAB_PROJECT_1_ID", "42"),
         ("GITLAB_PROJECT_1_FETCHERS", "a,b")])).length = 2 ∧
    (2 : Nat) ≠ 1 := by
  exact ⟨rfl, rfl, rfl, by decide⟩

open RunFetchers in
/-- Claim C3 as amended: N valid, fully-populated multiplication groups whose
fetcher lists reference only catalog fetchers (each list without repetition)
produce exactly one instance per (group, fetcher reference) pair — i.e. the
number of instances is the total number of fetcher references, not the number
N of groups — with pairwise-distinct instanceName values; in addition each
catalog fetcher claimed by no instance is run exactly once unbound, and no
catalog fetcher is both multiplied and run unbound. -/
theorem C3_amended :
    ∀ (env : Env) (es : EvidenceSets),
      (∀ p ∈ (parse_multi_instance_config env).gitlab_projects,
        p.fetchers.Nodup ∧ ∀ f ∈ p.fetchers, (lookupA es f).isSome = true) →
      (∀ r ∈ (parse_multi_instance_config env).aws_regions,
        r.fetchers.Nodup ∧ ∀ f ∈ r.fetchers, (lookupA es f).isSome = true) →
      (es.map Prod.fst).Nodup →
      (create_fetcher_instances es (parse_multi_instance_config env)).length =
        ((parse_multi_instance_config env).gitlab_projects.map
          (fun p => p.fetchers.length)).sum +
        ((parse_multi_instance_config env).aws_regions.map
          (fun r => r.fetchers.length)).sum ∧
      ((create_fetcher_instances es (parse_multi_instance_config env)).map
        Inst.instance_name).Nodup ∧
      (uncovered_fetchers es
        (create_fetcher_instances es (parse_multi_instance_config env))).Nodup ∧
      ∀ fname : String,
        fname ∈ uncovered_fetchers es
            (create_fetcher_instances es (parse_multi_instance_config env)) ↔
          fname ∈ es.map Prod.fst ∧
            ∀ i ∈ create_fetcher_instances es (parse_multi_instance_config env),
              i.script_name ≠ fname := by
  intro env es hG hA hes
  set mc := parse_multi_instance_config env with hmc
  have hGnames : ∀ p ∈ mc.gitlab_projects,
      (gitlabInstances es p).map Inst.instance_name =
        p.fetchers.map (fun f => f ++ "_" ++ p.name) :=
    fun p hp => gitlabInstances_names es p (hG p hp).2
  have hAnames : ∀ r ∈ mc.aws_regions,
      (awsInstances es r).map Inst.instance_name =
        r.fetchers.map (fun f => f ++ "_" ++ r.name) :=
    fun r hr => awsInstances_names es r (hA r hr).2
  have hGcanon : ∀ p ∈ mc.gitlab_projects, canonicalLabel p.name :=
    fun p hp => Or.inl (parse_gitlab_canonical env p hp)
  have hAcanon : ∀ r ∈ mc.aws_regions, canonicalLabel r.name :=
    fun r hr => Or.inr (parse_aws_canonical env r hr)
  have hname_eq : (create_fetcher_instances es mc).map Inst.instance_name =
      (mc.gitlab_projects.map
        (fun p => p.fetchers.map (fun f => f ++ "_" ++ p.name))).flatten ++
      (mc.aws_regions.map
        (fun r => r.fetchers.map (fun f => f ++ "_" ++ r.name))).flatten := by
    rw [create_fetcher_instances, List.map_append, List.map_flatten,
      List.map_flatten, List.map_map, List.map_map]
    congr 1
    · exact congrArg List.flatten (List.map_congr_left hGnames)
    · exact congrArg List.flatten (List.map_congr_left hAnames)
  have hGlen : ∀ p ∈ mc.gitlab_projects,
      (gitlabInstances es p).length = p.fetchers.length := by
    intro p hp
    have h2 := congrArg List.length (hGnames p hp)
    simpa using h2
  have hAlen : ∀ r ∈ mc.aws_regions,
      (awsInstances es r).length = r.fetchers.length := by
    intro r hr
    have h2 := congrArg List.length (hAnames r hr)
    simpa using h2
  have hlen : (create_fetcher_instances es mc).length =
      (mc.gitlab_projects.map (fun p => p.fetchers.length)).sum +
      (mc.aws_regions.map (fun r => r.fetchers.length)).sum := by
    rw [create_fetcher_instances, List.length_append, List.length_flatten,
      List.length_flatten, List.map_map, List.map_map]
    congr 1
    · exact congrArg List.sum (List.map_congr_left hGlen)
    · exact congrArg List.sum (List.map_congr_left hAlen)
  have hGpair : List.Pairwise (fun p q : GitlabProject => p.name ≠ q.name)
      mc.gitlab_projects :=
    List.pairwise_map.mp (parse_gitlab_names_nodup env)
  have hApair : List.Pairwise (fun p q : AwsRegion => p.name ≠ q.name)
      mc.aws_regions :=
    List.pairwise_map.mp (parse_aws_names_nodup env)
  have hGflat : ((mc.gitlab_projects.map
      (fun p => p.fetchers.map (fun f => f ++ "_" ++ p.name))).flatten).Nodup := by
    rw [List.nodup_flatten]
    constructor
    · intro l hl
      obtain ⟨p, hp, rfl⟩ := List.mem_map.mp hl
      exact List.Nodup.map_on
        (fun x hx y hy hxy =>
          (instance_name_inj (hGcanon p hp) (hGcanon p hp) hxy).1)
        (hG p hp).1
    · rw [List.pairwise_map]
      refine hGpair.imp_of_mem ?_
      intro p q hp hq hne x hxp hxq
      obtain ⟨a, ha, rfl⟩ := List.mem_map.mp hxp
      obtain ⟨b, hb, hba⟩ := List.mem_map.mp hxq
      exact hne (instance_name_inj (hGcanon p hp) (hGcanon q hq) hba.symm).2
  have hAflat : ((mc.aws_regions.map
      (fun r => r.fetchers.map (fun f => f ++ "_" ++ r.name))).flatten).Nodup := by
    rw [List.nodup_flatten]
    constructor
    · intro l hl
      obtain ⟨r, hr, rfl⟩ := List.mem_map.mp hl
      exact List.Nodup.map_on
        (fun x hx y hy hxy =>
          (instance_name_inj (hAcanon r hr) (hAcanon r hr) hxy).1)
        (hA r hr).1
    · rw [List.pairwise_map]
      refine hApair.imp_of_mem ?_
      intro p q hp hq hne x hxp hxq
      obtain ⟨a, ha, rfl⟩ := List.mem_map.mp hxp
      obtain ⟨b, hb, hba⟩ := List.mem_map.mp hxq
      exact hne (instance_name_inj (hAcanon p hp) (hAcanon q hq) hba.symm).2
  have hcross : List.Disjoint
      ((mc.gitlab_projects.map
        (fun p => p.fetchers.map (fun f => f ++ "_" ++ p.name))).flatten)
      ((mc.aws_regions.map
        (fun r => r.fetchers.map (fun f => f ++ "_" ++ r.name))).flatten) := by
    intro x hxG hxA
    obtain ⟨l1, hl1, hx1⟩ := List.mem_flatten.mp hxG
    obtain ⟨p, hp, rfl⟩ := List.mem_map.mp hl1
    obtain ⟨a, ha, rfl⟩ := List.mem_map.mp hx1
    obtain ⟨l2, hl2, hx2⟩ := List.mem_flatten.mp hxA
    obtain ⟨r, hr, rfl⟩ := List.mem_map.mp hl2
    obtain ⟨b, hb, hba⟩ := List.mem_map.mp hx2
    have hpr := (instance_name_inj (hAcanon r hr) (hGcanon p hp) hba).2
    obtain ⟨t, hps, _, _⟩ := parse_gitlab_canonical env p hp
    obtain ⟨u, hrt, _, _⟩ := parse_aws_canonical env r hr
    rw [hps, hrt] at hpr
    exact project_label_ne_region_label t u hpr.symm
  have hnodup : ((create_fetcher_instances es mc).map Inst.instance_name).Nodup := by
    rw [hname_eq]
    exact hGflat.append hAflat hcross
  have huncd : (uncovered_fetchers es (create_fetcher_instances es mc)).Nodup := by
    rw [uncovered_fetchers]
    exact (List.perm_insertionSort _ _).nodup_iff.mpr (hes.filter _)
  refine ⟨hlen, hnodup, huncd, ?_⟩
  intro fname
  rw [uncovered_fetchers, List.mem_insertionSort, List.mem_filter]
  constructor
  · rintro ⟨h1, h2⟩
    refine ⟨h1, ?_⟩
    intro i hi heq
    have hc : ((create_fetcher_instances es mc).map Inst.script_name).contains
        fname = true :=
      List.elem_iff.mpr (List.mem_map.mpr ⟨i, hi, heq⟩)
    rw [hc] at h2
    exact absurd h2 (by decide)
  · rintro ⟨h1, h2⟩
    refine ⟨h1, ?_⟩
    rw [Bool.not_eq_true']
    cases hcc : ((create_fetcher_instances es mc).map
        Inst.script_name).contains fname with
    | false => rfl
    | true =>
        obtain ⟨i, hi, hisn⟩ := List.mem_map.mp (List.elem_iff.mp hcc)
        exact (h2 i hi hisn).elim

open RunFetchers in
/-- Witness for C3_amended: one GitLab group listing two catalog fetchers and
one AWS-region group listing one produce three instances with distinct names,
and the one unreferenced catalog fetcher is exactly the unbound leftover. -/
theorem C3_amended_witness :
    (create_fetcher_instances
      [("a", "da"), ("b", "db"), ("c", "dc"), ("d", "dd")]
      (parse_multi_instance_config
        [("GITLAB_PROJECT_1_URL", "u"),
         ("GITLAB_PROJECT_1_API_ACCESS_TOKEN", "t"),
         ("GITLAB_PROJECT_1_ID", "42"),
         ("GITLAB_PROJECT_1_FETCHERS", "a,b"),
         ("AWS_REGION_1_FETCHERS", "c")])).length = 3 ∧
    ((create_fetcher_instances
      [("a", "da"), ("b", "db"), ("c", "dc"), ("d", "dd")]
      (parse_multi_instance_config
        [("GITLAB_PROJECT_1_URL", "u"),
         ("GITLAB_PROJECT_1_API_ACCESS_TOKEN", "t"),
         ("GITLAB_PROJECT_1_ID", "42"),
         ("GITLAB_PROJECT_1_FETCHERS", "a,b"),
         ("AWS_REGION_1_FETCHERS", "c")])).map Inst.instance_name).Nodup ∧
    "d" ∈ uncovered_fetchers
      [("a", "da"), ("b", "db"), ("c", "dc"), ("d", "dd")]
      (create_fetcher_instances
        [("a", "da"), ("b", "db"), ("c", "dc"), ("d", "dd")]
        (parse_multi_instance_config
          [("GITLAB_PROJECT_1_URL", "u"),
           ("GITLAB_PROJECT_1_API_ACCESS_TOKEN", "t"),
           ("GITLAB_PROJECT_1_ID", "42"),
           ("GITLAB_PROJECT_1_FETCHERS", "a,b"),
           ("AWS_REGION_1_FETCHERS", "c")])) := by
  have h := C3_amended
    [("GITLAB_PROJECT_1_URL", "u"),
     ("GITLAB_PROJECT_1_API_ACCESS_TOKEN", "t"),
     ("GITLAB_PROJECT_1_ID", "42"),
     ("GITLAB_PROJECT_1_FETCHERS", "a,b"),
     ("AWS_REGION_1_FETCHERS", "c")]
    [("a", "da"), ("b", "db"), ("c", "dc"), ("d", "dd")]
    (by decide) (by decide) (by decide)
  exact ⟨h.1.trans (by rfl), h.2.1, (h.2.2.2 "d").mpr ⟨by decide, by decide⟩⟩

end EvidenceFetchers
